import Mathlib

/-!
Verification of the scenario/combination regression engine of
`streamlit_app.py` (SleepingGiantRegressionAnalysis).

The Python source is shallowly embedded below.  Numeric cells and model
statistics are modelled by `PyFloat`, an exact-rational carrier extended with
the IEEE-754 special values `inf`, `-inf` and `nan`: the statistics produced by
`statsmodels` are numpy 64-bit floats, and numpy division by zero yields an
infinity or `nan` together with a warning rather than raising an exception, so
the embedding's arithmetic is total.  Rounding error is irrelevant to every
property checked here (all properties are exact identities between expressions
the code itself computes), so the rational carrier is faithful.

Fallible Python operations (dict lookup, `.iloc[0]` on an empty selection,
attribute lookup on a module, `st.error` followed by an early return) are
modelled with `Except PyError`.

The ordinary-least-squares fit itself is performed by the external
`statsmodels` library (the spec explicitly treats OLS fitting as a supplied
library routine); it is modelled as an oracle parameter `FitOracle` producing
either a fitted model's sufficient statistics or an error, and the theorems
about the orchestration quantify over this oracle.
-/

namespace SGReg

/-- A numpy 64-bit float value, modelled exactly: either a finite value
(carried as a rational — exact, since no claim depends on rounding), or one of
the special values `inf`, `-inf`, `nan`. -/
inductive PyFloat where
  | finite (q : ℚ)
  | inf
  | neginf
  | nan
deriving DecidableEq

namespace PyFloat

/-- IEEE/numpy addition on the special values; exact on finite values. -/
def add : PyFloat → PyFloat → PyFloat
  | nan, _ => nan
  | _, nan => nan
  | inf, neginf => nan
  | neginf, inf => nan
  | inf, _ => inf
  | _, inf => inf
  | neginf, _ => neginf
  | _, neginf => neginf
  | finite a, finite b => finite (a + b)

/-- IEEE/numpy division.  Crucially, numpy division of a finite value by zero
does NOT raise: it emits a runtime warning and returns `inf`/`-inf`/`nan`
(`0/0`), which is exactly how `calculate_anova_table` behaves on a model with
zero residual degrees of freedom.  Signed zero is not modelled; no claim
depends on it. -/
def div : PyFloat → PyFloat → PyFloat
  | nan, _ => nan
  | _, nan => nan
  | finite a, finite b =>
      if b = 0 then (if a = 0 then nan else if 0 < a then inf else neginf)
      else finite (a / b)
  | finite _, inf => finite 0
  | finite _, neginf => finite 0
  | inf, finite b => if b < 0 then neginf else inf
  | neginf, finite b => if b < 0 then inf else neginf
  | inf, inf => nan
  | inf, neginf => nan
  | neginf, inf => nan
  | neginf, neginf => nan

/-- Whether the value is an ordinary (finite) number. -/
def isFinite : PyFloat → Bool
  | finite _ => true
  | _ => false

end PyFloat

/-- The sufficient statistics of a fitted `statsmodels` OLS model that
`calculate_anova_table` reads (attribute names follow the library):
`ssr` is the sum of squared residuals, `ess` the explained sum of squares,
`df_resid`/`df_model` the residual/model degrees of freedom, and `f_pvalue`
the p-value of the overall F test. -/
structure OLSStats where
  ssr : PyFloat
  ess : PyFloat
  df_resid : PyFloat
  df_model : PyFloat
  f_pvalue : PyFloat
deriving DecidableEq

/-- A cell of the assembled ANOVA `DataFrame`: the `Significance F` column
holds a formatted string in the `Regression` row and `np.nan` elsewhere, so
its cells are either strings or float values. -/
inductive Cell where
  | num (x : PyFloat)
  | str (s : String)
deriving DecidableEq

/-- Left-pad the decimal digits of `n` with zeros to width 4. -/
def pad4 (n : Nat) : String :=
  let s := toString n
  (List.replicate (4 - s.length) '0').asString ++ s

/-- Python's `f"{p:.4f}"` fixed-point formatting, on the exact-rational
carrier.  The exact digit string never matters to any property below (only
whether the cell is a string or `np.nan` does); the special values render as
Python renders them. -/
def pyFormat4 : PyFloat → String
  | PyFloat.nan => "nan"
  | PyFloat.inf => "inf"
  | PyFloat.neginf => "-inf"
  | PyFloat.finite q =>
      let scaled : ℤ := ⌊q * 10000 + 1/2⌋
      let sign := if scaled < 0 then "-" else ""
      let n := scaled.natAbs
      sign ++ toString (n / 10000) ++ "." ++ pad4 (n % 10000)

/-- One row of the ANOVA table: columns `df`, `SS`, `MS`, `F`,
`Significance F` (in the source, a pandas `DataFrame` row). -/
structure AnovaRow where
  df : PyFloat
  SS : PyFloat
  MS : PyFloat
  F : PyFloat
  sig : Cell
deriving DecidableEq

/-- The three-row ANOVA table indexed `Regression`, `Residual`, `Total`. -/
structure AnovaTable where
  regression : AnovaRow
  residual : AnovaRow
  total : AnovaRow
deriving DecidableEq

/-- `RegressionApp.calculate_anova_table` (source lines 264–286), verbatim:
sums of squares and degrees of freedom are read off the model, the derived
quantities are computed by numpy arithmetic, and the cells the code fills with
`np.nan` are the `nan` value here.  Note the source's local names: its `sse`
is `model.ssr` (residual SS) and its `ssr` is `model.ess` (explained SS). -/
def calculate_anova_table (model : OLSStats) : AnovaTable :=
  let sse := model.ssr
  let ssr := model.ess
  let sst := ssr.add sse
  let dfe := model.df_resid
  let dfr := model.df_model
  let dft := dfr.add dfe
  let mse := sse.div dfe
  let msr := ssr.div dfr
  let f_stat := msr.div mse
  let p_value := model.f_pvalue
  { regression := ⟨dfr, ssr, msr, f_stat, Cell.str (pyFormat4 p_value)⟩
    residual := ⟨dfe, sse, mse, PyFloat.nan, Cell.num PyFloat.nan⟩
    total := ⟨dft, sst, PyFloat.nan, PyFloat.nan, Cell.num PyFloat.nan⟩ }

/-- A cell whose value pandas treats as missing: `np.nan`. -/
def Cell.isAbsent : Cell → Bool
  | Cell.num PyFloat.nan => true
  | _ => false

/-- `itertools.combinations(l, r)`: all `r`-element combinations of `l`
drawn without repetition, in lexicographic order of positions in `l`
(combinations containing the first element come first). -/
def combinationsList : Nat → List α → List (List α)
  | 0, _ => [[]]
  | _ + 1, [] => []
  | r + 1, x :: xs =>
      ((combinationsList r xs).map fun c => x :: c) ++ combinationsList (r + 1) xs

/-- The intended subset enumeration of source lines 99–101:
`itertools.chain.from_iterable(itertools.combinations(variables, r) for r in
range(1, num_variables + 1))` — all non-empty subsets grouped by increasing
size, each size group in lexicographic combination order.  (The source line as
written names the non-existent attribute `chain_from_iterable`; that slip is
modelled separately by `combinations_line99` below.  The rest of the embedding
uses this intended enumeration so the remainder of `process_scenario`'s logic
is analyzable.) -/
def subsetsList (vars : List α) : List (List α) :=
  (List.range vars.length).flatMap fun i => combinationsList (i + 1) vars

/-- The public attributes of Python's `itertools` module (Python 3.12).  The
point of recording them: `chain_from_iterable` is not among them — the library
function is `chain.from_iterable`, an attribute of the `chain` class. -/
def itertoolsAttrs : List String :=
  ["accumulate", "batched", "chain", "combinations", "combinations_with_replacement",
   "compress", "count", "cycle", "dropwhile", "filterfalse", "groupby", "islice",
   "pairwise", "permutations", "product", "repeat", "starmap", "takewhile", "tee",
   "zip_longest"]

/-- Errors of the embedded program. -/
inductive PyError where
  | attributeError (module attr : String)
  | keyError (k : String)
  | indexError
  | valueError (msg : String)
  | missingYearColumn
deriving DecidableEq

/-- Source line 99 as written: evaluating
`itertools.chain_from_iterable(...)` first resolves the attribute
`chain_from_iterable` on the `itertools` module; the module has no such
attribute, so the line raises `AttributeError` before producing any subset. -/
def combinations_line99 (vars : List String) :
    Except PyError (List (List String)) :=
  if "chain_from_iterable" ∈ itertoolsAttrs then Except.ok (subsetsList vars)
  else Except.error (PyError.attributeError "itertools" "chain_from_iterable")

/-- Source line 55: `num_combinations` is computed as
`sum([len(list(itertools.combinations(self.variables, i))) for i in
range(1, len(self.variables) + 1)])`. -/
def num_combinations (vars : List String) : Nat :=
  ((List.range vars.length).map fun i =>
    (combinationsList (i + 1) vars).length).sum

/-- Source line 56: `total_regressions = 5 * num_combinations` (the literal 5
is the number of predefined scenarios). -/
def total_regressions (vars : List String) : Nat :=
  5 * num_combinations vars

/-- `combinationsList` has binomial cardinality, exactly as
`itertools.combinations` does. -/
theorem length_combinationsList (r : Nat) (l : List α) :
    (combinationsList r l).length = l.length.choose r := by
  induction l generalizing r with
  | nil => cases r <;> simp [combinationsList]
  | cons x xs ih =>
      cases r with
      | zero => simp [combinationsList]
      | succ r =>
          simp [combinationsList, ih, Nat.choose_succ_succ, Nat.add_comm]

/-- Bridge between a `List.range` sum and a `Finset.range` sum. -/
theorem listSum_map_range (f : Nat → Nat) (n : Nat) :
    ((List.range n).map f).sum = ∑ i in Finset.range n, f i := by
  induction n with
  | zero => simp
  | succ n ih => simp [List.range_succ, Finset.sum_range_succ, ih]

/-- The line-55 count equals `2^N - 1` for `N` predictors. -/
theorem num_combinations_eq (vars : List String) :
    num_combinations vars = 2 ^ vars.length - 1 := by
  unfold num_combinations
  have h1 : ((List.range vars.length).map fun i =>
      (combinationsList (i + 1) vars).length).sum
      = ∑ i in Finset.range vars.length, vars.length.choose (i + 1) := by
    rw [listSum_map_range (fun i => (combinationsList (i + 1) vars).length)]
    exact Finset.sum_congr rfl fun i _ => length_combinationsList (i + 1) vars
  rw [h1]
  have h2 := Finset.sum_range_succ' (fun i => vars.length.choose i)
    vars.length
  rw [Nat.sum_range_choose] at h2
  have h3 : vars.length.choose 0 = 1 := Nat.choose_zero_right _
  omega

/-- The enumeration's cardinality is `2^N - 1`. -/
theorem length_subsetsList (vars : List α) :
    (subsetsList vars).length = 2 ^ vars.length - 1 := by
  have hb : (subsetsList vars).length
      = ((List.range vars.length).map fun i =>
          (combinationsList (i + 1) vars).length).sum := by
    simp [subsetsList, Function.comp_def]
  rw [hb, listSum_map_range (fun i => (combinationsList (i + 1) vars).length)]
  have h1 : ∀ i ∈ Finset.range vars.length,
      (combinationsList (i + 1) vars).length
      = vars.length.choose (i + 1) :=
    fun i _ => length_combinationsList (i + 1) vars
  rw [Finset.sum_congr rfl h1]
  have h2 := Finset.sum_range_succ' (fun i => vars.length.choose i)
    vars.length
  rw [Nat.sum_range_choose] at h2
  have h3 : vars.length.choose 0 = 1 := Nat.choose_zero_right _
  omega

/-- Claim C4: for every fitted model, the ANOVA table built by
`calculate_anova_table` satisfies `Total.df = Regression.df + Residual.df`,
`Total.SS = Regression.SS + Residual.SS`, `MS = SS / df` for the Regression
and Residual rows, `F = MS_regression / MS_residual`, while `MS`, `F` and
`Significance F` are absent (the `np.nan` missing marker) in the Total row and
`F`/`Significance F` are absent in the Residual row. -/
theorem anova_table_invariants (m : OLSStats) :
    (calculate_anova_table m).total.df
      = ((calculate_anova_table m).regression.df).add
          ((calculate_anova_table m).residual.df) ∧
    (calculate_anova_table m).total.SS
      = ((calculate_anova_table m).regression.SS).add
          ((calculate_anova_table m).residual.SS) ∧
    (calculate_anova_table m).regression.MS
      = ((calculate_anova_table m).regression.SS).div
          ((calculate_anova_table m).regression.df) ∧
    (calculate_anova_table m).residual.MS
      = ((calculate_anova_table m).residual.SS).div
          ((calculate_anova_table m).residual.df) ∧
    (calculate_anova_table m).regression.F
      = ((calculate_anova_table m).regression.MS).div
          ((calculate_anova_table m).residual.MS) ∧
    (calculate_anova_table m).total.MS = PyFloat.nan ∧
    (calculate_anova_table m).total.F = PyFloat.nan ∧
    ((calculate_anova_table m).total.sig).isAbsent = true ∧
    (calculate_anova_table m).residual.F = PyFloat.nan ∧
    ((calculate_anova_table m).residual.sig).isAbsent = true :=
  ⟨rfl, rfl, rfl, rfl, rfl, rfl, rfl, rfl, rfl, rfl⟩

/-- Claim C5, counterexample: on a model with zero residual degrees of
freedom, `calculate_anova_table` does not signal a degenerate-fit error — it
returns a fully populated table whose residual mean square is `inf` (numpy
division by zero warns and yields `inf`; nothing is raised). -/
theorem anova_zero_df_resid_produces_result :
    (calculate_anova_table
        ⟨PyFloat.finite 5, PyFloat.finite 10, PyFloat.finite 0,
         PyFloat.finite 1, PyFloat.nan⟩).residual
      = ⟨PyFloat.finite 0, PyFloat.finite 5, PyFloat.inf,
         PyFloat.nan, Cell.num PyFloat.nan⟩ := by
  decide

/-- Claim C5, amended: `calculate_anova_table` is pure and never signals an
error; on any model whose residual degrees of freedom equal 0 it silently
produces a table whose residual mean square is a non-finite value
(`inf`/`-inf`/`nan`) instead of failing. -/
theorem anova_total_no_failure (m : OLSStats)
    (h : m.df_resid = PyFloat.finite 0) :
    (calculate_anova_table m).residual.MS.isFinite = false ∧
    (calculate_anova_table m).residual.df = PyFloat.finite 0 := by
  have hms : (calculate_anova_table m).residual.MS = m.ssr.div m.df_resid := rfl
  have hdf : (calculate_anova_table m).residual.df = m.df_resid := rfl
  refine ⟨?_, by rw [hdf, h]⟩
  rw [hms, h]
  cases hs : m.ssr <;> simp [PyFloat.div, PyFloat.isFinite] <;> split_ifs <;> rfl

/-- Witness for `anova_total_no_failure` at a concrete degenerate model. -/
theorem anova_total_no_failure_witness :
    (calculate_anova_table
        ⟨PyFloat.finite 5, PyFloat.finite 10, PyFloat.finite 0,
         PyFloat.finite 1, PyFloat.nan⟩).residual.MS.isFinite = false ∧
    (calculate_anova_table
        ⟨PyFloat.finite 5, PyFloat.finite 10, PyFloat.finite 0,
         PyFloat.finite 1, PyFloat.nan⟩).residual.df = PyFloat.finite 0 :=
  anova_total_no_failure _ rfl

/-- Claim C2 (code bug): evaluating source line 99 resolves the attribute
`chain_from_iterable` on the `itertools` module and raises `AttributeError`
before producing a single subset — the library spelling is
`itertools.chain.from_iterable`.  The second conjunct records what the
intended enumeration produces on the same input `["A", "B"]`: exactly the
`2^2 - 1` subsets, size-grouped, in lexicographic combination order. -/
theorem enumeration_line99_attribute_error :
    combinations_line99 ["A", "B"]
      = Except.error (PyError.attributeError "itertools" "chain_from_iterable") ∧
    subsetsList ["A", "B"] = [["A"], ["B"], ["A", "B"]] := by
  constructor
  · have h : "chain_from_iterable" ∉ itertoolsAttrs := by decide
    simp [combinations_line99, h]
  · decide

/-- The uploaded dataset: an ordered list of column names and the data rows
(cell values are numeric-coercible; they are carried exactly as rationals).
Column binding in the source is purely positional: the response is
`df.columns[1]` and the predictors are `df.columns[2:]`. -/
structure DataFrame where
  columns : List String
  rows : List (List ℚ)
deriving DecidableEq

/-- Lines 45/54/96: `self.df.columns[2:].tolist()` — the predictor list is
the columns from index 2 on, independent of their names. -/
def variablesOf (df : DataFrame) : List String :=
  df.columns.drop 2

/-- Line 95: `self.df[self.df['Year'].isin(years)]` — keep the rows whose
`Year` cell is one of the selected years.  (pandas would raise `KeyError` on a
missing `Year` column, but `run_regression_scenarios` reaches this line only
after checking the column exists, so the `none` branch is unreachable there.) -/
def filterYears (df : DataFrame) (years : List Int) : List (List ℚ) :=
  match df.columns.findIdx? (fun c => c == "Year") with
  | some i => df.rows.filter fun row =>
      match row[i]? with
      | some v => years.any fun y => decide ((y : ℚ) = v)
      | none => false
  | none => []

/-- Source lines 16–22: the five predefined year selections.
`range(a, b)` is `List.range' a (b - a)`; the `not in {...}` set tests are
membership tests against the written-out exclusion lists. -/
def predefined_years : List (String × List Int) :=
  [("2001-2023", (List.range' 2001 23).map Int.ofNat),
   ("2005 - 2023 excluding 2009, 2016",
     ((List.range' 2005 19).filter fun y =>
       decide (y ∉ ([2009, 2016] : List Nat))).map Int.ofNat),
   ("2001-2023 excluding 2020, 2021, 2022",
     ((List.range' 2001 23).filter fun y =>
       decide (y ∉ ([2020, 2021, 2022] : List Nat))).map Int.ofNat),
   ("2001-2019", (List.range' 2001 19).map Int.ofNat),
   ("2001-2023 excluding 2009, 2013, 2020, 2021, 2022",
     ((List.range' 2001 23).filter fun y =>
       decide (y ∉ ([2009, 2013, 2020, 2021, 2022] : List Nat))).map Int.ofNat)]

/-- Python dict subscription: `d[k]` raises `KeyError` when absent. -/
def dictLookup (d : List (String × α)) (k : String) : Except PyError α :=
  match d.lookup k with
  | some v => Except.ok v
  | none => Except.error (PyError.keyError k)

/-- Source lines 92–93: `if not years: years = predefined_years[scenario_name]`
— an empty year selection is silently replaced by the scenario's predefined
default before the dataset is filtered. -/
def resolveYears (scenario_name : String) (years : List Int) :
    Except PyError (List Int) :=
  if years = [] then dictLookup predefined_years scenario_name
  else Except.ok years

/-- A fitted model as the rest of the program consumes it: the sufficient
statistics read by `calculate_anova_table`, and the per-term summary table
(term name and rendered cells) that `model.summary().tables[1]` yields. -/
structure FittedModel where
  stats : OLSStats
  summaryRows : List (String × List String)
deriving DecidableEq

/-- `run_single_regression` (lines 24–29) coerces the selected columns to
float, adds an intercept column and calls `sm.OLS(...).fit()` — an external
`statsmodels` library routine (the spec treats OLS fitting as supplied by a
library).  It is modelled as an oracle from the filtered rows, the response
column name and the predictor subset to either a fitted model or a raised
error; the orchestration theorems quantify over this oracle. -/
def FitOracle : Type :=
  List (List ℚ) → String → List String → Except PyError FittedModel

/-- `format_regression_output` (lines 260–262): parse the model's summary
coefficient table into a data frame — in the embedding, the model's per-term
rows. -/
def format_regression_output (model : FittedModel) : List (String × List String) :=
  model.summaryRows

/-- One entry of a scenario's result list, the 7-tuple appended at line 109:
`(output_df, years, y_column, model, anova_table, selected_x_vars, idx)`. -/
structure SubsetResult where
  output_df : List (String × List String)
  years : List Int
  y_name : String
  model : FittedModel
  anova : AnovaTable
  x_vars : List String
  idx : Nat
deriving DecidableEq

/-- The fitting loop of `process_scenario` (lines 105–111):
`for idx, selected_x_vars in enumerate(combinations, start=1)` — fit, format,
compute the ANOVA table, append the tuple, increment the shared progress
counter.  The response column `self.df.columns[1]` is read inside the loop
body (an out-of-range index would raise only once the loop runs).  There is no
try/except anywhere in the source: an exception raised by a fit aborts the
loop, the local `scenario_results` list is discarded, and the already
performed counter increments persist — hence the result is a pair of the
loop's outcome and the counter. -/
def runSubsets (df_selected : List (List ℚ)) (fit : FitOracle)
    (cols : List String) (years : List Int) :
    List (List String) → Nat → Nat → Except PyError (List SubsetResult) × Nat
  | [], _, completed => (Except.ok [], completed)
  | xs :: rest, idx, completed =>
    match cols[1]? with
    | none => (Except.error PyError.indexError, completed)
    | some y_name =>
      match fit df_selected y_name xs with
      | Except.error e => (Except.error e, completed)
      | Except.ok model =>
        let r : SubsetResult :=
          ⟨format_regression_output model, years, y_name, model,
           calculate_anova_table model.stats, xs, idx⟩
        match runSubsets df_selected fit cols years rest (idx + 1) (completed + 1) with
        | (res, c2) => (res.map fun rs => r :: rs, c2)

/-- `process_scenario` (lines 91–113): resolve the effective years, filter the
dataset rows, enumerate the predictor subsets, and run the fitting loop; on
success return `(scenario_name, scenario_results)`.  The enumeration is the
intended one (see `subsetsList` and `combinations_line99`). -/
def process_scenario (df : DataFrame) (fit : FitOracle) (scenario_name : String)
    (years : List Int) (completed : Nat) :
    Except PyError (String × List SubsetResult) × Nat :=
  match resolveYears scenario_name years with
  | Except.error e => (Except.error e, completed)
  | Except.ok ys =>
    let df_selected := filterYears df ys
    let combs := subsetsList (variablesOf df)
    match runSubsets df_selected fit df.columns ys combs 1 completed with
    | (res, c2) => (res.map fun rs => (scenario_name, rs), c2)

/-- One submitted future: `executor.submit(process_scenario, name, years)`.
Each task's stored value depends only on its own scenario (the shared progress
counter is the only cross-task state, and no result field reads it), so the
task is modelled starting from a private zero counter whose final value is the
number of increments the task performed. -/
def scenarioTask (df : DataFrame) (fit : FitOracle) (s : String × List Int) :
    Except PyError (String × List SubsetResult) × Nat :=
  process_scenario df fit s.1 s.2 0

/-- The pool's completed futures, in wall-clock completion order `comp`
(`comp` lists submission indices in the order the tasks happened to finish):
each completed future stores its submission index and its computed value. -/
def futureTable (tasks : List α) (comp : List Nat) : List (Nat × α) :=
  comp.filterMap fun i => (tasks[i]?).map fun r => (i, r)

/-- Lines 117–118: `for future in futures: all_results.append(future.result())`
— the collection loop iterates the futures list in submission order and reads
each future's stored value, whatever order the tasks completed in. -/
def collectInSubmissionOrder (tasks : List α) (comp : List Nat) : List α :=
  (List.range tasks.length).filterMap fun i => (futureTable tasks comp).lookup i

/-- `future.result()` re-raises an exception stored in a future, and the
collection loop has no handler: the first stored error (in submission order)
propagates out of `run_regression_scenarios`; otherwise all values are
appended. -/
def seqResults : List (Except PyError α) → Except PyError (List α)
  | [] => Except.ok []
  | Except.error e :: _ => Except.error e
  | Except.ok a :: rest => (seqResults rest).map fun l => a :: l

/-- Line 35: `self.scenarios = dict(predefined_years)` — the app's scenario
mapping is exactly the five predefined entries, in insertion order. -/
def appScenarios : List (String × List Int) :=
  predefined_years

/-- `run_regression_scenarios` (lines 74–121): check that a `Year` column
exists (otherwise display a single fatal error and return, with no scenario
started and the progress counter untouched); submit one task per scenario to
the worker pool; collect `future.result()` in submission order.  The wall
clock is abstracted by `comp`, the order in which the concurrent tasks
completed; the returned counter is the total number of fit-completion
increments performed by all submitted tasks (the `with` block joins every
task, and increments are modelled without lost updates). -/
def run_regression_scenarios (df : DataFrame) (fit : FitOracle)
    (scenarios : List (String × List Int)) (comp : List Nat) :
    Except PyError (List (String × List SubsetResult)) × Nat :=
  if "Year" ∈ df.columns then
    let tasks := scenarios.map (scenarioTask df fit)
    let gathered := collectInSubmissionOrder tasks comp
    (seqResults (gathered.map Prod.fst), (tasks.map Prod.snd).sum)
  else
    (Except.error PyError.missingYearColumn, 0)

/-- A future that has completed holds the value of its own task: looking up
submission index `i` in the completed-future table yields `tasks[i]`,
whatever position `i` occupies in the completion order. -/
theorem lookup_futureTable (tasks : List α) (comp : List Nat) (i : Nat)
    (hi : i < tasks.length) (hmem : i ∈ comp) :
    (futureTable tasks comp).lookup i = tasks[i]? := by
  induction comp with
  | nil => cases hmem
  | cons c cs ih =>
      by_cases hic : i = c
      · subst hic
        have : tasks[i]? = some tasks[i] := List.getElem?_eq_getElem hi
        simp [futureTable, List.filterMap_cons, this, List.lookup]
      · have hmem' : i ∈ cs := by
          cases List.mem_cons.mp hmem with
          | inl h => exact absurd h hic
          | inr h => exact h
        cases hc : tasks[c]? with
        | none => simpa [futureTable, List.filterMap_cons, hc] using ih hmem'
        | some v =>
            have hne : (i == c) = false := by
              simp [hic]
            simpa [futureTable, List.filterMap_cons, hc, List.lookup, hne]
              using ih hmem'

/-- Reading every index of a list back through `getElem?` reproduces it. -/
theorem filterMap_getElem_range (l : List α) :
    (List.range l.length).filterMap (fun i => l[i]?) = l := by
  induction l with
  | nil => simp
  | cons x xs ih =>
      have h : List.range (xs.length + 1)
          = 0 :: (List.range xs.length).map Nat.succ :=
        List.range_succ_eq_map xs.length
      simp only [List.length_cons, h, List.filterMap_cons, List.getElem?_cons_zero,
        List.filterMap_map]
      simpa [Function.comp_def] using ih

/-- When every submitted task has completed, the collection loop returns
exactly the tasks' stored values, in submission order — whatever the
completion order was. -/
theorem collect_eq_tasks (tasks : List α) (comp : List Nat)
    (hc : ∀ j, j < tasks.length → j ∈ comp) :
    collectInSubmissionOrder tasks comp = tasks := by
  unfold collectInSubmissionOrder
  have hcong : ∀ i ∈ List.range tasks.length,
      (futureTable tasks comp).lookup i = tasks[i]? := by
    intro i hi
    exact lookup_futureTable tasks comp i (List.mem_range.mp hi)
      (hc i (List.mem_range.mp hi))
  rw [List.filterMap_congr hcong]
  exact filterMap_getElem_range tasks

/-- `seqResults` succeeds exactly on a list of successes, and then returns
them in order. -/
theorem seqResults_ok_iff (l : List (Except PyError α)) (rs : List α) :
    seqResults l = Except.ok rs ↔ l = rs.map Except.ok := by
  induction l generalizing rs with
  | nil => cases rs <;> simp [seqResults]
  | cons h t ih =>
      cases h with
      | error e => cases rs <;> simp [seqResults]
      | ok a =>
          cases rs with
          | nil =>
              cases hseq : seqResults t <;> simp [seqResults, hseq, Except.map]
          | cons b bs =>
              cases hseq : seqResults t with
              | error e =>
                  have : ¬ t = bs.map Except.ok := by
                    intro hcontra
                    rw [(ih bs).mpr hcontra] at hseq
                    cases hseq
                  simp [seqResults, hseq, Except.map, this]
              | ok l' =>
                  have ht : t = l'.map Except.ok := (ih l').mp hseq
                  constructor
                  · intro hmap
                    simp [seqResults, hseq, Except.map] at hmap
                    simp [ht, ← hmap.1, hmap.2]
                  · intro hl
                    simp at hl
                    obtain ⟨hab, htbs⟩ := hl
                    have : l' = bs := by
                      have := (ih bs).mpr htbs
                      rw [hseq] at this
                      cases this
                      rfl
                    simp [seqResults, hseq, Except.map, hab, this]

/-- A scenario task that returns normally is keyed by its own scenario name. -/
theorem process_scenario_fst_name (df : DataFrame) (fit : FitOracle)
    (n : String) (ys : List Int) (c : Nat) (p : String × List SubsetResult)
    (h : (process_scenario df fit n ys c).1 = Except.ok p) : p.1 = n := by
  unfold process_scenario at h
  cases hr : resolveYears n ys with
  | error e => rw [hr] at h; cases h
  | ok ys' =>
      rw [hr] at h
      simp only at h
      cases hrs : (runSubsets (filterYears df ys') fit df.columns ys'
          (subsetsList (variablesOf df)) 1 c) with
      | mk res c2 =>
          rw [hrs] at h
          cases res with
          | error e => cases h
          | ok rs =>
              simp [Except.map] at h
              rw [← h]

/-- When every fit succeeds, the fitting loop completes every subset: it
returns a success and performs exactly one counter increment per subset. -/
theorem runSubsets_allok (df_sel : List (List ℚ)) (fit : FitOracle)
    (cols : List String) (ys : List Int) (yn : String)
    (hy : cols[1]? = some yn)
    (hfit : ∀ d y x, ∃ m, fit d y x = Except.ok m) :
    ∀ (subs : List (List String)) (idx c : Nat),
      (runSubsets df_sel fit cols ys subs idx c).2 = c + subs.length ∧
      ∃ rs, (runSubsets df_sel fit cols ys subs idx c).1 = Except.ok rs := by
  intro subs
  induction subs with
  | nil => intro idx c; exact ⟨rfl, [], rfl⟩
  | cons xs rest ih =>
      intro idx c
      obtain ⟨m, hm⟩ := hfit df_sel yn xs
      obtain ⟨h2, rs, h1⟩ := ih (idx + 1) (c + 1)
      have hstep : runSubsets df_sel fit cols ys (xs :: rest) idx c
          = (((runSubsets df_sel fit cols ys rest (idx + 1) (c + 1)).1).map
              (fun l => (⟨format_regression_output m, ys, yn, m,
                calculate_anova_table m.stats, xs, idx⟩ : SubsetResult) :: l),
             (runSubsets df_sel fit cols ys rest (idx + 1) (c + 1)).2) := by
        simp [runSubsets, hy, hm]
      rw [hstep]
      constructor
      · simp only [h2, List.length_cons]
        omega
      · exact ⟨_ :: rs, by rw [h1]; rfl⟩

/-- `process_scenario` with explicit (non-empty) years and an always-succeeding
fit oracle: returns a success and increments the counter once per enumerated
subset, i.e. `2^N - 1` times. -/
theorem process_scenario_allok (df : DataFrame) (fit : FitOracle)
    (name : String) (ys : List Int) (c : Nat)
    (hys : ys ≠ [])
    (hfit : ∀ d y x, ∃ m, fit d y x = Except.ok m) :
    (process_scenario df fit name ys c).2
      = c + (2 ^ (variablesOf df).length - 1) ∧
    ∃ p, (process_scenario df fit name ys c).1 = Except.ok p := by
  have hres : resolveYears name ys = Except.ok ys := by
    simp [resolveYears, hys]
  have hps : process_scenario df fit name ys c
      = (((runSubsets (filterYears df ys) fit df.columns ys
            (subsetsList (variablesOf df)) 1 c).1).map (fun rs => (name, rs)),
         (runSubsets (filterYears df ys) fit df.columns ys
            (subsetsList (variablesOf df)) 1 c).2) := by
    simp [process_scenario, hres]
  by_cases hnil : variablesOf df = []
  · have hsub : subsetsList (variablesOf df) = ([] : List (List String)) := by
      rw [hnil]; rfl
    rw [hps, hsub, hnil]
    exact ⟨rfl, (name, []), rfl⟩
  · obtain ⟨v, vs, hv⟩ := List.exists_cons_of_ne_nil hnil
    have hlen : 2 < df.columns.length := by
      have := congrArg List.length hv
      simp [variablesOf] at this
      omega
    have hy : df.columns[1]? = some df.columns[1] :=
      List.getElem?_eq_getElem (by omega)
    obtain ⟨h2, rs, h1⟩ := runSubsets_allok (filterYears df ys) fit df.columns
      ys df.columns[1] hy hfit (subsetsList (variablesOf df)) 1 c
    constructor
    · rw [hps]
      show (runSubsets (filterYears df ys) fit df.columns ys
          (subsetsList (variablesOf df)) 1 c).2
        = c + (2 ^ (variablesOf df).length - 1)
      rw [h2, length_subsetsList]
    · exact ⟨(name, rs), by rw [hps]; show Except.map _ _ = _; rw [h1]; rfl⟩

/-- With an always-succeeding fit oracle, the submitted tasks together
increment the counter `scenario_count × (2^N - 1)` times. -/
theorem tasks_sum_allok (df : DataFrame) (fit : FitOracle)
    (scenarios : List (String × List Int))
    (hsc : ∀ s ∈ scenarios, s.2 ≠ [])
    (hfit : ∀ d y x, ∃ m, fit d y x = Except.ok m) :
    ((scenarios.map (scenarioTask df fit)).map Prod.snd).sum
      = scenarios.length * (2 ^ (variablesOf df).length - 1) := by
  induction scenarios with
  | nil => simp
  | cons s ss ih =>
      have h1 := (process_scenario_allok df fit s.1 s.2 0
        (hsc s (List.mem_cons_self s ss)) hfit).1
      have h2 := ih (fun t ht => hsc t (List.mem_cons_of_mem s ht))
      simp only [List.map_cons, List.sum_cons, scenarioTask, h1, h2,
        List.length_cons]
      ring

/-- Claim C3: `total_regressions` (computed up front on lines 55–56) equals
`scenario_count × (2^N - 1)` for the five app scenarios, and after a full run
in which no fit fails the shared counter equals `total_regressions` — each
successful subset fit having incremented it exactly once. -/
theorem total_count_and_completed (df : DataFrame) (fit : FitOracle)
    (comp : List Nat)
    (hY : "Year" ∈ df.columns)
    (hfit : ∀ d y x, ∃ m, fit d y x = Except.ok m) :
    total_regressions (variablesOf df)
      = appScenarios.length * (2 ^ (variablesOf df).length - 1) ∧
    (run_regression_scenarios df fit appScenarios comp).2
      = total_regressions (variablesOf df) := by
  have h1 : total_regressions (variablesOf df)
      = 5 * (2 ^ (variablesOf df).length - 1) := by
    rw [total_regressions, num_combinations_eq]
  have hlen : appScenarios.length = 5 := rfl
  refine ⟨by rw [h1, hlen], ?_⟩
  have hsc : ∀ s ∈ appScenarios, s.2 ≠ [] := by decide
  have hsum := tasks_sum_allok df fit appScenarios hsc hfit
  have hrun : (run_regression_scenarios df fit appScenarios comp).2
      = ((appScenarios.map (scenarioTask df fit)).map Prod.snd).sum := by
    simp [run_regression_scenarios, hY]
  rw [hrun, hsum, hlen, h1]

/-- Witness for `total_count_and_completed`: a dataset with one predictor
(`N = 1`) and a fit oracle that always succeeds — the batch performs
`5 × (2^1 - 1) = 5` fits. -/
theorem total_count_and_completed_witness :
    total_regressions (variablesOf ⟨["Year", "Y", "A"], []⟩)
      = appScenarios.length
        * (2 ^ (variablesOf (⟨["Year", "Y", "A"], []⟩ : DataFrame)).length - 1) ∧
    (run_regression_scenarios ⟨["Year", "Y", "A"], []⟩
        (fun _ _ _ => Except.ok ⟨⟨PyFloat.nan, PyFloat.nan, PyFloat.nan,
          PyFloat.nan, PyFloat.nan⟩, []⟩) appScenarios [0, 1, 2, 3, 4]).2
      = total_regressions (variablesOf ⟨["Year", "Y", "A"], []⟩) :=
  total_count_and_completed ⟨["Year", "Y", "A"], []⟩
    (fun _ _ _ => Except.ok ⟨⟨PyFloat.nan, PyFloat.nan, PyFloat.nan,
      PyFloat.nan, PyFloat.nan⟩, []⟩) [0, 1, 2, 3, 4]
    (by decide) (fun d y x => ⟨_, rfl⟩)

/-- Claim C8: with no `Year` column the batch fails fatally before any
scenario starts — the run returns the single missing-column error, no task is
submitted, no partial result is produced, and the progress counter stays 0. -/
theorem missing_year_fatal (df : DataFrame) (fit : FitOracle)
    (scenarios : List (String × List Int)) (comp : List Nat)
    (hY : "Year" ∉ df.columns) :
    run_regression_scenarios df fit scenarios comp
      = (Except.error PyError.missingYearColumn, 0) := by
  simp [run_regression_scenarios, hY]

/-- Witness for `missing_year_fatal` on a concrete dataset without `Year`. -/
theorem missing_year_fatal_witness :
    run_regression_scenarios ⟨["Y", "A", "B"], []⟩
        (fun _ _ _ => Except.error PyError.indexError) appScenarios [0, 1, 2, 3, 4]
      = (Except.error PyError.missingYearColumn, 0) :=
  missing_year_fatal ⟨["Y", "A", "B"], []⟩
    (fun _ _ _ => Except.error PyError.indexError) appScenarios [0, 1, 2, 3, 4]
    (by decide)

/-- Ordered success extraction: if every scenario task's stored outcome is a
success, the names of the collected results are the scenario names in
submission order. -/
theorem seq_map_fst (df : DataFrame) (fit : FitOracle) :
    ∀ (scenarios : List (String × List Int))
      (rs : List (String × List SubsetResult)),
      scenarios.map (fun s => (scenarioTask df fit s).1) = rs.map Except.ok →
      rs.map Prod.fst = scenarios.map Prod.fst := by
  intro scenarios
  induction scenarios with
  | nil =>
      intro rs h
      cases rs with
      | nil => rfl
      | cons r rrs => simp at h
  | cons s ss ih =>
      intro rs h
      cases rs with
      | nil => simp at h
      | cons r rrs =>
          simp only [List.map_cons, List.cons.injEq] at h
          obtain ⟨h1, h2⟩ := h
          have hname := process_scenario_fst_name df fit s.1 s.2 0 r h1
          simp [hname, ih rrs h2]

/-- Claim C9: the batch's returned value does not depend on the wall-clock
order in which the scenario tasks completed, and on success the returned
`(scenario_name, result list)` pairs are in scenario-submission order. -/
theorem batch_submission_order (df : DataFrame) (fit : FitOracle)
    (scenarios : List (String × List Int)) (comp comp' : List Nat)
    (hc : ∀ j, j < scenarios.length → j ∈ comp)
    (hc' : ∀ j, j < scenarios.length → j ∈ comp') :
    run_regression_scenarios df fit scenarios comp
      = run_regression_scenarios df fit scenarios comp' ∧
    ∀ rs, (run_regression_scenarios df fit scenarios comp).1 = Except.ok rs →
      rs.map Prod.fst = scenarios.map Prod.fst := by
  by_cases hY : "Year" ∈ df.columns
  · have hlen : (scenarios.map (scenarioTask df fit)).length = scenarios.length :=
      List.length_map _ _
    have hg : collectInSubmissionOrder (scenarios.map (scenarioTask df fit)) comp
        = scenarios.map (scenarioTask df fit) :=
      collect_eq_tasks _ _ (fun j hj => hc j (hlen ▸ hj))
    have hg' : collectInSubmissionOrder (scenarios.map (scenarioTask df fit)) comp'
        = scenarios.map (scenarioTask df fit) :=
      collect_eq_tasks _ _ (fun j hj => hc' j (hlen ▸ hj))
    constructor
    · simp [run_regression_scenarios, hY, hg, hg']
    · intro rs hrs
      simp only [run_regression_scenarios, if_pos hY] at hrs
      rw [hg] at hrs
      rw [seqResults_ok_iff] at hrs
      apply seq_map_fst df fit scenarios rs
      simpa [List.map_map, Function.comp_def] using hrs
  · constructor
    · simp [run_regression_scenarios, hY]
    · intro rs hrs
      simp [run_regression_scenarios, hY] at hrs

/-- Witness for `batch_submission_order`: the five app scenarios over a
dataset with no predictor columns (every scenario then yields an empty result
list), collected under a reversed completion order versus the submission
order. -/
theorem batch_submission_order_witness :
    run_regression_scenarios ⟨["Year", "Y"], []⟩
        (fun _ _ _ => Except.error PyError.indexError) appScenarios [4, 3, 2, 1, 0]
      = run_regression_scenarios ⟨["Year", "Y"], []⟩
        (fun _ _ _ => Except.error PyError.indexError) appScenarios [0, 1, 2, 3, 4] ∧
    ∀ rs, (run_regression_scenarios ⟨["Year", "Y"], []⟩
        (fun _ _ _ => Except.error PyError.indexError) appScenarios
        [4, 3, 2, 1, 0]).1 = Except.ok rs →
      rs.map Prod.fst = appScenarios.map Prod.fst :=
  batch_submission_order ⟨["Year", "Y"], []⟩
    (fun _ _ _ => Except.error PyError.indexError) appScenarios
    [4, 3, 2, 1, 0] [0, 1, 2, 3, 4] (by decide) (by decide)

/-- Unfolding the enumeration over a non-empty predictor list: the first
enumerated subset is the singleton of the first predictor. -/
theorem subsetsList_cons_eq (v : α) (vs : List α) :
    subsetsList (v :: vs)
      = [v] :: (combinationsList 1 vs
          ++ ((List.range vs.length).map Nat.succ).flatMap
              (fun i => combinationsList (i + 1) (v :: vs))) := by
  simp [subsetsList, List.range_succ_eq_map, combinationsList]

/-- Existential form of `subsetsList_cons_eq`. -/
theorem subsetsList_cons (v : α) (vs : List α) :
    ∃ t, subsetsList (v :: vs) = [v] :: t :=
  ⟨_, subsetsList_cons_eq v vs⟩

/-- Claim C1, amended: the source has no try/except, so a fit that raises is
NOT recorded against the subset's sequence index — `process_scenario` aborts,
its local result list is discarded (the scenario contributes nothing, not
even the subsets that had already succeeded), and when the scheduler calls
`future.result()` the exception re-raises and the whole batch returns the
error instead of completing with the surviving scenarios' results. -/
theorem fit_error_aborts_scenario_and_batch (df : DataFrame) (fit : FitOracle)
    (name : String) (years : List Int) (c : Nat) (e : PyError)
    (rest : List (String × List Int)) (comp : List Nat)
    (v : String) (vs : List String) (yn : String)
    (hv : variablesOf df = v :: vs)
    (hyears : years ≠ [])
    (hyn : df.columns[1]? = some yn)
    (hY : "Year" ∈ df.columns)
    (hcomp : ∀ j, j < ((name, years) :: rest).length → j ∈ comp)
    (hfail : fit (filterYears df years) yn [v] = Except.error e) :
    process_scenario df fit name years c = (Except.error e, c) ∧
    (run_regression_scenarios df fit ((name, years) :: rest) comp).1
      = Except.error e := by
  have hres : resolveYears name years = Except.ok years := by
    simp [resolveYears, hyears]
  obtain ⟨t, ht⟩ := subsetsList_cons v vs
  have hsub : subsetsList (variablesOf df) = [v] :: t := by rw [hv, ht]
  have hprocAt : ∀ c', process_scenario df fit name years c'
      = (Except.error e, c') := by
    intro c'
    have hrun : runSubsets (filterYears df years) fit df.columns years
        (subsetsList (variablesOf df)) 1 c' = (Except.error e, c') := by
      rw [hsub]
      simp [runSubsets, hyn, hfail]
    simp [process_scenario, hres, hrun, Except.map]
  refine ⟨hprocAt c, ?_⟩
  have hlen : (((name, years) :: rest).map (scenarioTask df fit)).length
      = ((name, years) :: rest).length := List.length_map _ _
  have hg := collect_eq_tasks (((name, years) :: rest).map (scenarioTask df fit))
    comp (fun j hj => hcomp j (hlen ▸ hj))
  simp only [run_regression_scenarios, if_pos hY]
  rw [hg]
  have h0 : (scenarioTask df fit (name, years)).1 = Except.error e := by
    show (process_scenario df fit name years 0).1 = Except.error e
    rw [hprocAt 0]
  rw [List.map_cons, List.map_cons, h0]
  rfl

/-- Witness for `fit_error_aborts_scenario_and_batch` at a concrete dataset,
scenario and always-raising fit. -/
theorem fit_error_aborts_witness :
    process_scenario ⟨["Year", "Y", "A"], []⟩
        (fun _ _ _ => Except.error PyError.indexError) "s" [(2001 : Int)] 7
      = (Except.error PyError.indexError, 7) ∧
    (run_regression_scenarios ⟨["Year", "Y", "A"], []⟩
        (fun _ _ _ => Except.error PyError.indexError)
        [("s", [(2001 : Int)])] [0]).1
      = Except.error PyError.indexError :=
  fit_error_aborts_scenario_and_batch ⟨["Year", "Y", "A"], []⟩
    (fun _ _ _ => Except.error PyError.indexError) "s" [(2001 : Int)] 7
    PyError.indexError [] [0] "A" [] "Y" rfl (by decide) rfl (by decide)
    (by decide) rfl

/-- Claim C1, counterexample: with a fit that raises on every subset (as
`statsmodels` does, for example, on an empty filtered dataset), the batch run
returns the raised error — the failure is not recorded against the subset's
sequence index, the scenario contributes no partial results, and the batch
does crash. -/
theorem fit_error_crashes_batch_example :
    (run_regression_scenarios ⟨["Year", "Y", "A"], []⟩
        (fun _ _ _ => Except.error (PyError.valueError "zero-size array"))
        appScenarios [0, 1, 2, 3, 4]).1
      = Except.error (PyError.valueError "zero-size array") ∧
    (process_scenario ⟨["Year", "Y", "A"], []⟩
        (fun _ _ _ => Except.error (PyError.valueError "zero-size array"))
        "2001-2023" ((List.range' 2001 23).map Int.ofNat) 0)
      = (Except.error (PyError.valueError "zero-size array"), 0) := by
  exact ⟨rfl, rfl⟩

/-- A value found by dict lookup is the value of some entry of the dict. -/
theorem lookup_value_mem (d : List (String × α)) (k : String) (v : α)
    (h : d.lookup k = some v) : ∃ p ∈ d, p.2 = v := by
  induction d with
  | nil => cases h
  | cons p ps ih =>
      cases p with
      | mk k' v' =>
          by_cases hk : (k == k') = true
          · simp only [List.lookup, hk] at h
            have hv := Option.some.inj h
            subst hv
            exact ⟨(k', v'), List.mem_cons_self _ _, rfl⟩
          · simp only [List.lookup, Bool.of_not_eq_true hk] at h
            obtain ⟨p, hp, hpv⟩ := ih h
            exact ⟨p, List.mem_cons_of_mem _ hp, hpv⟩

/-- Claim C7: an empty year selection is not an error — lines 92–93 silently
substitute the scenario's predefined default, and for any named scenario the
resolved year filter is never empty (every predefined selection is
non-empty). -/
theorem empty_years_fallback (name : String) (ys0 : List Int)
    (h : predefined_years.lookup name = some ys0) (years : List Int) :
    resolveYears name [] = Except.ok ys0 ∧
    ∀ r, resolveYears name years = Except.ok r → r ≠ [] := by
  have hys0 : ys0 ≠ [] := by
    have hall : ∀ p ∈ predefined_years, p.2 ≠ ([] : List Int) := by decide
    obtain ⟨p, hp, hpv⟩ := lookup_value_mem predefined_years name ys0 h
    exact hpv ▸ hall p hp
  constructor
  · simp [resolveYears, dictLookup, h]
  · intro r hr
    by_cases hys : years = []
    · subst hys
      simp [resolveYears, dictLookup, h] at hr
      exact hr ▸ hys0
    · simp [resolveYears, hys] at hr
      exact hr ▸ hys

/-- Witness for `empty_years_fallback` on the first predefined scenario. -/
theorem empty_years_fallback_witness :
    resolveYears "2001-2023" [] = Except.ok ((List.range' 2001 23).map Int.ofNat) ∧
    ∀ r, resolveYears "2001-2023" [] = Except.ok r → r ≠ [] :=
  empty_years_fallback "2001-2023" ((List.range' 2001 23).map Int.ofNat) rfl []

/-- Size-1 combinations are exactly the singletons, in input order. -/
theorem combinationsList_one (l : List α) :
    combinationsList 1 l = l.map (fun x => [x]) := by
  induction l with
  | nil => rfl
  | cons x xs ih => simp [combinationsList, ih]

/-- Every member of the predictor list occurs in the enumeration as its own
singleton subset. -/
theorem mem_singleton_subsetsList (x : α) (l : List α) (hx : x ∈ l) :
    [x] ∈ subsetsList l := by
  have hlen : 0 < l.length := List.length_pos.mpr (List.ne_nil_of_mem hx)
  refine List.mem_flatMap.mpr ⟨0, List.mem_range.mpr hlen, ?_⟩
  rw [show (0 + 1 : Nat) = 1 from rfl, combinationsList_one]
  exact List.mem_map.mpr ⟨x, hx, rfl⟩

/-- Claim C10: column binding is purely positional — response = the column at
index 1, predictors = the columns at indices 2 and above, independent of
names.  So when a column named `Year` sits at index 2 or later, the batch's
`Year`-existence check still passes and `Year` is itself enumerated as a
predictor (its singleton subset is among the fitted subsets). -/
theorem positional_binding (c0 c1 : String) (rest : List String)
    (rows : List (List ℚ)) (hYear : "Year" ∈ rest) :
    "Year" ∈ (DataFrame.mk (c0 :: c1 :: rest) rows).columns ∧
    (DataFrame.mk (c0 :: c1 :: rest) rows).columns[1]? = some c1 ∧
    variablesOf (DataFrame.mk (c0 :: c1 :: rest) rows) = rest ∧
    "Year" ∈ variablesOf (DataFrame.mk (c0 :: c1 :: rest) rows) ∧
    ["Year"] ∈ subsetsList (variablesOf (DataFrame.mk (c0 :: c1 :: rest) rows)) := by
  refine ⟨List.mem_cons_of_mem _ (List.mem_cons_of_mem _ hYear), ?_, rfl, hYear,
    mem_singleton_subsetsList _ _ hYear⟩
  simp

/-- Witness for `positional_binding`: `Year` at index 2, response bound to the
index-1 column `B` regardless of names. -/
theorem positional_binding_witness :
    "Year" ∈ (DataFrame.mk ["A", "B", "Year", "C"] []).columns ∧
    (DataFrame.mk ["A", "B", "Year", "C"] []).columns[1]? = some "B" ∧
    variablesOf (DataFrame.mk ["A", "B", "Year", "C"] []) = ["Year", "C"] ∧
    "Year" ∈ variablesOf (DataFrame.mk ["A", "B", "Year", "C"] []) ∧
    ["Year"] ∈ subsetsList (variablesOf (DataFrame.mk ["A", "B", "Year", "C"] [])) :=
  positional_binding "A" "B" ["Year", "C"] [] (by decide)

/-- Lines 164/175: `coeff_table[coeff_table.iloc[:, 0] == name].iloc[0]` —
the first row of the parsed coefficient table whose term name matches;
`.iloc[0]` on an empty selection raises `IndexError`. -/
def firstRowNamed (t : List (String × List String)) (v : String) :
    Except PyError (String × List String) :=
  match t.filter (fun r => r.1 == v) with
  | [] => Except.error PyError.indexError
  | r :: _ => Except.ok r

/-- One emitted row of the ranked coefficient block: the stable label
(`S{idx}Const` or `S{idx}X{rank}`, lines 171/176) prepended to the term name
and rendered cells of the matching summary-table row. -/
structure OutRow where
  label : String
  term : String
  cells : List String
deriving DecidableEq

/-- The non-`const` term names of the parsed coefficient table, in table
order (line 165). -/
def xVars (t : List (String × List String)) : List String :=
  (t.filter (fun r => !(r.1 == "const"))).map Prod.fst

/-- The Coefficient Ranker of `prepare_downloads` (lines 160–176): take the
first `const` row, sort the remaining term names with Python's `sorted`
(a stable, case-sensitive lexicographic sort by code points — modelled by
insertion sort over `String` order, which compares the same way), then emit
the `const` row first, followed by the predictor rows in sorted-name order,
labelled `S{idx}X{rank}` with 1-based rank. -/
def rank_coefficients (idx : Nat) (coeff_table : List (String × List String)) :
    Except PyError (List OutRow) :=
  match coeff_table.filter (fun r => r.1 == "const") with
  | [] => Except.error PyError.indexError
  | crow :: _ =>
    let x_vars := xVars coeff_table
    let x_vars_sorted := List.insertionSort (fun a b => a ≤ b) x_vars
    (x_vars_sorted.enum.mapM fun p =>
      (firstRowNamed coeff_table p.2).map fun r =>
        (⟨"S" ++ toString idx ++ "X" ++ toString (p.1 + 1), r.1, r.2⟩ : OutRow)).map
      fun rows => (⟨"S" ++ toString idx ++ "Const", crow.1, crow.2⟩ : OutRow) :: rows

/-- A name that occurs as a row's term name is found, and the found row
carries that name. -/
theorem firstRowNamed_ok (t : List (String × List String)) (v : String)
    (hv : ∃ r ∈ t, r.1 = v) :
    ∃ r, firstRowNamed t v = Except.ok r ∧ r.1 = v := by
  obtain ⟨r0, hr0, hr0v⟩ := hv
  cases hf : t.filter (fun r => r.1 == v) with
  | nil =>
      exfalso
      have : r0 ∈ t.filter (fun r => r.1 == v) :=
        List.mem_filter.mpr ⟨hr0, by simp [hr0v]⟩
      rw [hf] at this
      cases this
  | cons r rs =>
      refine ⟨r, by simp [firstRowNamed, hf], ?_⟩
      have : r ∈ t.filter (fun r => r.1 == v) := by
        rw [hf]; exact List.mem_cons_self _ _
      have := List.of_mem_filter this
      simpa using this

/-- Mapping the labelled lookup over an index-tagged name list: when every
name is found, the traversal succeeds, reproduces the names in order, and
produces the labels `X{n+1}, X{n+2}, …` from the running enumeration index. -/
theorem mapM_enumFrom_spec (t : List (String × List String)) (idx : Nat) :
    ∀ (s : List String) (n : Nat),
      (∀ v ∈ s, ∃ r ∈ t, r.1 = v) →
      ∃ rows,
        ((List.enumFrom n s).mapM fun p =>
          (firstRowNamed t p.2).map fun r =>
            (⟨"S" ++ toString idx ++ "X" ++ toString (p.1 + 1), r.1, r.2⟩ : OutRow))
          = Except.ok rows ∧
        rows.map OutRow.term = s ∧
        rows.map OutRow.label
          = (List.range' (n + 1) s.length).map
              (fun k => "S" ++ toString idx ++ "X" ++ toString k) := by
  intro s
  induction s with
  | nil => intro n _; exact ⟨[], rfl, rfl, rfl⟩
  | cons v vs ih =>
      intro n hall
      obtain ⟨r, hr, hrv⟩ := firstRowNamed_ok t v (hall v (List.mem_cons_self _ _))
      obtain ⟨rows, hrows, hterm, hlabel⟩ :=
        ih (n + 1) (fun w hw => hall w (List.mem_cons_of_mem _ hw))
      refine ⟨⟨"S" ++ toString idx ++ "X" ++ toString (n + 1), r.1, r.2⟩ :: rows,
        ?_, ?_, ?_⟩
      · simp only [List.enumFrom, List.mapM_cons, hr, hrows]
        rfl
      · simp [hterm, hrv]
      · simp only [List.map_cons, hlabel, List.length_cons]
        rw [List.range'_succ]
        simp


/-- Structure of a successful Coefficient Ranker run: exactly one `const`
row, emitted first; the predictor rows follow in name-sorted order with
`X{rank}` labels by 1-based rank. -/
theorem rank_spec (idx : Nat) (t : List (String × List String))
    (crow : String × List String) (cs : List (String × List String))
    (hconst : t.filter (fun r => r.1 == "const") = crow :: cs) :
    crow.1 = "const" ∧
    ∃ out, rank_coefficients idx t = Except.ok out ∧
      out.map OutRow.term
        = "const" :: List.insertionSort (fun a b => a ≤ b) (xVars t) ∧
      out.map OutRow.label
        = ("S" ++ toString idx ++ "Const")
          :: (List.range' 1 (xVars t).length).map
              (fun k => "S" ++ toString idx ++ "X" ++ toString k) := by
  have hc1 : crow.1 = "const" := by
    have hmem : crow ∈ t.filter (fun r => r.1 == "const") := by
      rw [hconst]; exact List.mem_cons_self _ _
    have := List.of_mem_filter hmem
    simpa using this
  refine ⟨hc1, ?_⟩
  have hall : ∀ v ∈ List.insertionSort (fun a b => a ≤ b) (xVars t),
      ∃ r ∈ t, r.1 = v := by
    intro v hv
    have hvx : v ∈ xVars t :=
      (List.perm_insertionSort (fun a b => a ≤ b) (xVars t)).mem_iff.mp hv
    obtain ⟨r, hr, hrv⟩ := List.mem_map.mp hvx
    exact ⟨r, List.mem_of_mem_filter hr, hrv⟩
  obtain ⟨rows, hm, hterm, hlabel⟩ :=
    mapM_enumFrom_spec t idx (List.insertionSort (fun a b => a ≤ b) (xVars t)) 0 hall
  have hlen : (List.insertionSort (fun a b => a ≤ b) (xVars t)).length
      = (xVars t).length :=
    (List.perm_insertionSort (fun a b => a ≤ b) (xVars t)).length_eq
  refine ⟨(⟨"S" ++ toString idx ++ "Const", crow.1, crow.2⟩ : OutRow) :: rows,
    ?_, ?_, ?_⟩
  · simp only [rank_coefficients, hconst]
    rw [show (List.insertionSort (fun a b => a ≤ b) (xVars t)).enum
        = List.enumFrom 0 (List.insertionSort (fun a b => a ≤ b) (xVars t))
      from rfl, hm]
    rfl
  · simp [hterm, hc1]
  · simp only [List.map_cons, hlabel, hlen]

/-- Claim C6: for every parsed coefficient table containing a `const` row,
the emitted block has exactly one intercept row, placed first, followed by
the predictor rows sorted by name (case-sensitive lexicographic comparison),
each labelled `X{rank}` with rank its 1-based position after sorting; the
emitted term and label sequences are a function of the table's row names
only — invariant under any permutation of the table's rows, hence
independent of the subset's enumeration order. -/
theorem coefficient_ranker_sorted (idx : Nat) (t : List (String × List String))
    (crow : String × List String) (cs : List (String × List String))
    (hconst : t.filter (fun r => r.1 == "const") = crow :: cs) :
    ∃ out, rank_coefficients idx t = Except.ok out ∧
      out.map OutRow.term
        = "const" :: List.insertionSort (fun a b => a ≤ b) (xVars t) ∧
      List.Sorted (fun a b => a ≤ b) ((out.map OutRow.term).tail) ∧
      out.map OutRow.label
        = ("S" ++ toString idx ++ "Const")
          :: (List.range' 1 (xVars t).length).map
              (fun k => "S" ++ toString idx ++ "X" ++ toString k) ∧
      ∀ t' out', List.Perm t t' →
        rank_coefficients idx t' = Except.ok out' →
        out'.map OutRow.term = out.map OutRow.term ∧
        out'.map OutRow.label = out.map OutRow.label := by
  obtain ⟨hc1, out, hok, hterm, hlabel⟩ := rank_spec idx t crow cs hconst
  have hsorted : List.Sorted (fun a b => a ≤ b) ((out.map OutRow.term).tail) := by
    rw [hterm]
    exact List.sorted_insertionSort (fun a b => a ≤ b) (xVars t)
  refine ⟨out, hok, hterm, hsorted, hlabel, ?_⟩
  intro t' out' hperm hok'
  cases hconst' : t'.filter (fun r => r.1 == "const") with
  | nil =>
      rw [rank_coefficients, hconst'] at hok'
      cases hok'
  | cons crow' cs' =>
      obtain ⟨hc1', out'', hok'', hterm'', hlabel''⟩ :=
        rank_spec idx t' crow' cs' hconst'
      rw [hok'] at hok''
      have hoe : out' = out'' := Except.ok.inj hok''
      subst hoe
      have hx : List.Perm (xVars t) (xVars t') := by
        unfold xVars
        exact (hperm.filter _).map _
      have hsorteq : List.insertionSort (fun a b => a ≤ b) (xVars t')
          = List.insertionSort (fun a b => a ≤ b) (xVars t) := by
        refine List.eq_of_perm_of_sorted ?_
          (List.sorted_insertionSort (fun a b => a ≤ b) (xVars t'))
          (List.sorted_insertionSort (fun a b => a ≤ b) (xVars t))
        exact (List.perm_insertionSort _ _).trans
          (hx.symm.trans (List.perm_insertionSort (fun a b => a ≤ b) (xVars t)).symm)
      constructor
      · rw [hterm'', hterm, hsorteq]
      · rw [hlabel'', hlabel, hx.length_eq]

/-- Witness for `coefficient_ranker_sorted` on the spec's own example: for a
table whose predictor rows arrive in fit order `(Zeta, Alpha)`, the emitted
block is `Const`, then `Alpha` as `X1`, then `Zeta` as `X2`. -/
theorem coefficient_ranker_sorted_witness :
    ∃ out, rank_coefficients 1
        [("const", ["c"]), ("Zeta", ["z"]), ("Alpha", ["a"])] = Except.ok out ∧
      out.map OutRow.term
        = "const" :: List.insertionSort (fun a b => a ≤ b)
            (xVars [("const", ["c"]), ("Zeta", ["z"]), ("Alpha", ["a"])]) ∧
      List.Sorted (fun a b => a ≤ b) ((out.map OutRow.term).tail) ∧
      out.map OutRow.label
        = ("S" ++ toString 1 ++ "Const")
          :: (List.range' 1 (xVars [("const", ["c"]), ("Zeta", ["z"]),
                ("Alpha", ["a"])]).length).map
              (fun k => "S" ++ toString 1 ++ "X" ++ toString k) ∧
      ∀ t' out', List.Perm [("const", ["c"]), ("Zeta", ["z"]), ("Alpha", ["a"])] t' →
        rank_coefficients 1 t' = Except.ok out' →
        out'.map OutRow.term = out.map OutRow.term ∧
        out'.map OutRow.label = out.map OutRow.label :=
  coefficient_ranker_sorted 1 [("const", ["c"]), ("Zeta", ["z"]), ("Alpha", ["a"])]
    ("const", ["c"]) [] rfl

end SGReg
